import Mathlib

/-!
Verification development for the Vortex excerpt: the Steam lookup stub and
`lazy` memoization helper (`src/unnamed/part_000`) and the state-backup
writer plus `SuperTable` internals (`src/src/util/stateBackup.ts`).

Promises are modelled by `Except`: a promise that rejects with an error `e`
is `.error e`, one that resolves with `a` is `.ok a`.  JavaScript
`undefined` is modelled by `Option.none`.
-/

/-! ## Steam module (`src/unnamed/part_000`)

`ISteamEntry` and `ISteamExec` mirror the two interfaces; `Date` is
modelled as a timestamp. -/

structure ISteamEntry where
  appid : String
  name : String
  gamePath : String
  lastUser : String
  lastUpdated : Nat
deriving DecidableEq

structure ISteamExec where
  steamPath : String
  arguments : List String
deriving DecidableEq

/-- Class `GamePathNotMatched extends Error`: private fields `mGamePath`
and `mEntryPaths` set by the constructor. -/
structure GamePathNotMatched where
  mGamePath : String
  mEntryPaths : List String
deriving DecidableEq

/-- Constructor `GamePathNotMatched(gamePath, entries)`. -/
def GamePathNotMatched.ofArgs (gamePath : String) (entries : List String) :
    GamePathNotMatched :=
  { mGamePath := gamePath, mEntryPaths := entries }

/-- Getter `get gamePath()`. -/
def GamePathNotMatched.gamePath (e : GamePathNotMatched) : String :=
  e.mGamePath

/-- Getter `get steamEntryPaths()`. -/
def GamePathNotMatched.steamEntryPaths (e : GamePathNotMatched) : List String :=
  e.mEntryPaths

/-- Class `GameNotFound extends Error`: private field `mSearch` set by the
constructor. -/
structure GameNotFound where
  mSearch : String
deriving DecidableEq

/-- Constructor `GameNotFound(search)`. -/
def GameNotFound.ofArgs (search : String) : GameNotFound :=
  { mSearch := search }

/-- Getter `get search()`. -/
def GameNotFound.search (e : GameNotFound) : String :=
  e.mSearch

/-- The error kinds the Steam module can reject with. -/
inductive SteamError where
  | gameNotFound (e : GameNotFound)
  | gamePathNotMatched (e : GamePathNotMatched)
deriving DecidableEq

/-- Default Steam implementation, `findByName`: always
`Promise.reject(new GameNotFound(namePattern))`. -/
def findByName (namePattern : String) : Except SteamError ISteamEntry :=
  Except.error (SteamError.gameNotFound (GameNotFound.ofArgs namePattern))

/-- Default Steam implementation, `findByAppId`: always
`Promise.reject(new GameNotFound(''))`. -/
def findByAppId (appId : String ⊕ List String) : Except SteamError ISteamEntry :=
  Except.error (SteamError.gameNotFound (GameNotFound.ofArgs ""))

/-- Default Steam implementation, `allGames`: always
`Promise.resolve([])`. -/
def allGames : Except SteamError (List ISteamEntry) :=
  Except.ok []

/-- Default Steam implementation, `getGameExecutionInfo`: always
`Promise.reject(new GameNotFound(gamePath))`. -/
def getGameExecutionInfo (gamePath : String) (appId : Option Nat)
    (args : Option (List String)) : Except SteamError ISteamExec :=
  Except.error (SteamError.gameNotFound (GameNotFound.ofArgs gamePath))

/-! ## `lazy` (`src/unnamed/part_000`)

`lazy(func)` closes over a cache `value : T` (initially `undefined`) and
returns a thunk: on each call, if `value === undefined` it runs `func`
and stores the result, then returns `value`.  `func` is a pure thunk, so
it is represented by its unique result `funcResult : Option α`
(`Option.none` models a thunk returning `undefined`). -/

/-- One call of the closure returned by `lazy`.  Input: the cache before
the call.  Output: the value returned to the caller, the cache after the
call, and how many times `func` was invoked during this call. -/
def lazyCall {α : Type} (funcResult : Option α) (value : Option α) :
    Option α × Option α × Nat :=
  match value with
  | Option.none => (funcResult, funcResult, 1)
  | Option.some v => (Option.some v, Option.some v, 0)

/-- Trace of a sequence of calls to the closure returned by `lazy`. -/
structure LazyTrace (α : Type) where
  value : Option α
  results : List (Option α)
  invocations : Nat
deriving DecidableEq

/-- Run `n` successive calls of the closure returned by `lazy`, starting
from the fresh closure (cache `undefined`, no invocations yet). -/
def lazyRun {α : Type} (funcResult : Option α) : Nat → LazyTrace α
  | 0 => { value := Option.none, results := [], invocations := 0 }
  | n + 1 =>
    let t := lazyRun funcResult n
    let c := lazyCall funcResult t.value
    { value := c.2.1, results := t.results ++ [c.1], invocations := t.invocations + c.2.2 }

/-! ## Claim theorems for the Steam module and `lazy` -/

/-- C1: in the default Steam implementation, `findByName` rejects with a
`GameNotFound` error, `findByAppId` rejects with a `GameNotFound` error,
`allGames` resolves to the empty list, and `getGameExecutionInfo` rejects
with a `GameNotFound` error — for every input. -/
theorem steam_default_all_not_found (namePattern : String)
    (appId : String ⊕ List String) (gamePath : String) (appIdNum : Option Nat)
    (args : Option (List String)) :
    findByName namePattern
      = Except.error (SteamError.gameNotFound (GameNotFound.ofArgs namePattern))
    ∧ findByAppId appId
      = Except.error (SteamError.gameNotFound (GameNotFound.ofArgs ""))
    ∧ allGames = Except.ok []
    ∧ getGameExecutionInfo gamePath appIdNum args
      = Except.error (SteamError.gameNotFound (GameNotFound.ofArgs gamePath)) :=
  ⟨rfl, rfl, rfl, rfl⟩

/-- C7: a `GamePathNotMatched` error constructed from a game path and a
list of candidate entry paths returns exactly those from its `gamePath`
and `steamEntryPaths` accessors, and a `GameNotFound` error constructed
from a search term returns exactly that term from its `search`
accessor. -/
theorem steam_errors_carry_context (gp : String) (entries : List String)
    (searchTerm : String) :
    (GamePathNotMatched.ofArgs gp entries).gamePath = gp
    ∧ (GamePathNotMatched.ofArgs gp entries).steamEntryPaths = entries
    ∧ (GameNotFound.ofArgs searchTerm).search = searchTerm :=
  ⟨rfl, rfl, rfl⟩

/-- Auxiliary: a run of the `lazy` closure over a thunk with a defined
result invokes the thunk exactly once and always returns that result;
over a thunk returning `undefined` it re-invokes on every call. -/
theorem lazyRun_spec {α : Type} (v : α) (n : Nat) :
    lazyRun (Option.some v) (n + 1)
      = { value := Option.some v
          results := List.replicate (n + 1) (Option.some v)
          invocations := 1 }
    ∧ lazyRun (Option.none : Option α) n
      = { value := Option.none
          results := List.replicate n Option.none
          invocations := n } := by
  constructor
  · induction n with
    | zero => rfl
    | succ m ih =>
      show (let t := lazyRun (Option.some v) (m + 1)
            let c := lazyCall (Option.some v) t.value
            ({ value := c.2.1, results := t.results ++ [c.1],
               invocations := t.invocations + c.2.2 } : LazyTrace α))
          = _
      rw [ih]
      simp [lazyCall, List.replicate_succ]
      rw [← List.replicate_succ', List.replicate_succ]
  · induction n with
    | zero => rfl
    | succ m ih =>
      show (let t := lazyRun (Option.none : Option α) m
            let c := lazyCall (Option.none : Option α) t.value
            ({ value := c.2.1, results := t.results ++ [c.1],
               invocations := t.invocations + c.2.2 } : LazyTrace α))
          = _
      rw [ih]
      simp [lazyCall, List.replicate_succ]
      rw [← List.replicate_succ', List.replicate_succ]

/-- C9: for a thunk whose result is not `undefined`, the closure returned
by `lazy` invokes the thunk exactly once over any positive number of
calls, every call returning the cached result; for a thunk returning
`undefined`, the thunk is re-invoked on every call. -/
theorem lazy_memoizes {α : Type} (v : α) (n : Nat) (h : 1 ≤ n) :
    lazyRun (Option.some v) n
      = { value := Option.some v
          results := List.replicate n (Option.some v)
          invocations := 1 }
    ∧ lazyRun (Option.none : Option α) n
      = { value := Option.none
          results := List.replicate n Option.none
          invocations := n } := by
  obtain ⟨m, rfl⟩ : ∃ m, n = m + 1 := ⟨n - 1, (Nat.succ_pred_eq_of_pos h).symm⟩
  exact ⟨(lazyRun_spec v m).1, (lazyRun_spec v (m + 1)).2⟩

/-- Witness for C9 at `v = 7`, `n = 3`. -/
theorem lazy_memoizes_witness :
    1 ≤ 3
    ∧ (lazyRun (Option.some 7) 3
        = { value := Option.some 7
            results := List.replicate 3 (Option.some 7)
            invocations := 1 }
      ∧ lazyRun (Option.none : Option Nat) 3
        = { value := Option.none
            results := List.replicate 3 Option.none
            invocations := 3 }) :=
  ⟨by decide, lazy_memoizes 7 3 (by decide)⟩

/-! ## State backup writer (`src/src/util/stateBackup.ts`, lines 1-72)

JSON objects are modelled as association lists with string keys and
values in an arbitrary type `V`; `getKey` is property lookup.  The file
system and clock are modelled by a `BackupEnv`: `readParse` gives, per
path, the outcome of `fs.readFileSync` followed by `JSON.parse` (an
exception from either is `.error ()`), `freshId` is the next value
`shortid()` generates, and `now` is `Date.now()`.  Writes are recorded in
the result instead of performed. -/

/-- Property lookup on a JSON object (first binding of the key wins). -/
def getKey {V : Type} (o : List (String × V)) (k : String) : Option V :=
  match o with
  | [] => Option.none
  | p :: rest => if p.1 == k then Option.some p.2 else getKey rest k

/-- JavaScript object spread `{ ...old, ...new }`: keys of `old` keep
their position but take the value from `newObj` when present there; keys
only in `newObj` are appended. -/
def spread {V : Type} (old newObj : List (String × V)) : List (String × V) :=
  old.map (fun p =>
    match getKey newObj p.1 with
    | Option.some v => (p.1, v)
    | Option.none => p)
  ++ newObj.filter (fun p => (getKey old p.1).isNone)

/-- `makeName(time)`. -/
def makeName (time : Nat) : String :=
  "backup_" ++ toString time ++ ".json"

/-- `path.join` on two segments. -/
def pathJoin (a b : String) : String :=
  a ++ "/" ++ b

/-- `backupPath()`: `path.join(app.getPath('temp'), 'state_backups')`,
parameterized by the OS temporary directory. -/
def backupPath (tempDir : String) : String :=
  pathJoin tempDir "state_backups"

/-- Lookup in the module-level `backups` registry (backupId to
registration time). -/
def regLookup (reg : List (String × Nat)) (id : String) : Option Nat :=
  match reg.find? (fun p => p.1 == id) with
  | Option.some p => Option.some p.2
  | Option.none => Option.none

/-- Environment a backup operation runs in. -/
structure BackupEnv (V : Type) where
  tempDir : String
  registry : List (String × Nat)
  readParse : String → Except Unit (List (String × V))
  freshId : String
  now : Nat

/-- Observable outcome of `createStateBackupSync`: the returned id, the
registry afterwards, and the path and data of the `fs.writeFileSync`. -/
structure BackupWrite (V : Type) where
  returnedId : String
  registry : List (String × Nat)
  writtenPath : String
  written : List (String × V)

/-- `createStateBackupSync(backupId, data)`.  An unknown or `undefined`
`backupId` is replaced by a fresh id registered at the current time; a
known one first reads and parses the existing backup file, treating a
failure as empty existing data (the error is only logged).  The merged
object `{ ...existingData, ...data }` is then written to
`backupPath()/makeName(backups[backupId])`. -/
def createStateBackupSync {V : Type} (env : BackupEnv V) (backupIdIn : Option String)
    (data : List (String × V)) : BackupWrite V :=
  match backupIdIn with
  | Option.none =>
    { returnedId := env.freshId
      registry := (env.freshId, env.now) :: env.registry
      writtenPath := pathJoin (backupPath env.tempDir) (makeName env.now)
      written := spread [] data }
  | Option.some id =>
    match regLookup env.registry id with
    | Option.none =>
      { returnedId := env.freshId
        registry := (env.freshId, env.now) :: env.registry
        writtenPath := pathJoin (backupPath env.tempDir) (makeName env.now)
        written := spread [] data }
    | Option.some time =>
      let existingData : List (String × V) :=
        match env.readParse (pathJoin (backupPath env.tempDir) (makeName time)) with
        | Except.ok o => o
        | Except.error _ => []
      { returnedId := id
        registry := env.registry
        writtenPath := pathJoin (backupPath env.tempDir) (makeName time)
        written := spread existingData data }

/-- `createFullBackup(state)`: registers a fresh id at the current time
and writes the whole state to `backupPath()/makeName(backups[backupId])`,
resolving with the id. -/
def createFullBackup {V : Type} (env : BackupEnv V) (state : List (String × V)) :
    BackupWrite V :=
  { returnedId := env.freshId
    registry := (env.freshId, env.now) :: env.registry
    writtenPath := pathJoin (backupPath env.tempDir) (makeName env.now)
    written := state }

/-- JavaScript `String.prototype.startsWith`, over the character data (the
built-in `String.startsWith` does not reduce in the kernel). -/
def strStartsWith (s pre : String) : Bool :=
  pre.data.isPrefixOf s.data

/-- Characters after the last `.` of a name, if any. -/
def lastExt : List Char → Option (List Char)
  | [] => Option.none
  | c :: rest =>
    match lastExt rest with
    | Option.some e => Option.some e
    | Option.none => if c = '.' then Option.some rest else Option.none

/-- `path.extname` on a plain file name: the suffix from the last dot,
empty when the name has no dot. -/
def extname (s : String) : String :=
  match lastExt s.data with
  | Option.some e => String.mk ('.' :: e)
  | Option.none => ""

/-- `getListOfBackups()`: the names in the backup directory listing that
start with `backup` and whose `path.extname` is `.json`, from the
`fs.readdirAsync` listing of `backupPath()`. -/
def getListOfBackups (listing : List String) : List String :=
  listing.filter (fun fileName => strStartsWith fileName "backup" && extname fileName == ".json")

/-- Promise `.catch`: replace a rejection by the handler's outcome. -/
def catchE {ε α : Type} (x : Except ε α) (handler : ε → Except ε α) : Except ε α :=
  match x with
  | Except.ok a => Except.ok a
  | Except.error e => handler e

/-- `deleteBackups(files)`: for each name, attempt
`fs.removeAsync(path.join(backupPath(), backupName))` with failures
individually caught (`.catch(() => undefined)`).  `removeOutcome` gives
each removal's outcome by path; each attempt reports the path it acted
on, so the result records every attempted path in order. -/
def deleteBackups {V : Type} (env : BackupEnv V)
    (removeOutcome : String → Except Unit Unit) : List String → Except Unit (List String)
  | [] => Except.ok []
  | backupName :: rest =>
    let p := pathJoin (backupPath env.tempDir) backupName
    match catchE ((removeOutcome p).map (fun _ => p)) (fun _ => Except.ok p) with
    | Except.error e => Except.error e
    | Except.ok r =>
      match deleteBackups env removeOutcome rest with
      | Except.error e => Except.error e
      | Except.ok rs => Except.ok (r :: rs)

/-! ### Lemmas about object spread and the backup operations -/

theorem spread_nil_left {V : Type} (d : List (String × V)) : spread [] d = d := by
  unfold spread
  simp [getKey]

theorem getKey_append {V : Type} (a b : List (String × V)) (k : String) :
    getKey (a ++ b) k
      = match getKey a k with
        | Option.some v => Option.some v
        | Option.none => getKey b k := by
  induction a with
  | nil => rfl
  | cons p rest ih =>
    by_cases h : (p.1 == k) = true
    · simp [getKey, h]
    · simp [getKey, h, ih]

theorem getKey_spread_map {V : Type} (old newObj : List (String × V)) (k : String) :
    getKey (old.map (fun p =>
        match getKey newObj p.1 with
        | Option.some v => (p.1, v)
        | Option.none => p)) k
      = match getKey old k with
        | Option.some w =>
          Option.some (match getKey newObj k with
            | Option.some v => v
            | Option.none => w)
        | Option.none => Option.none := by
  induction old with
  | nil => rfl
  | cons p rest ih =>
    cases hn : getKey newObj p.1 with
    | none =>
      by_cases h : (p.1 == k) = true
      · have hk : p.1 = k := by simpa using h
        subst hk
        simp [getKey, hn]
      · simp [getKey, hn, h, ih]
    | some v =>
      by_cases h : (p.1 == k) = true
      · have hk : p.1 = k := by simpa using h
        subst hk
        simp [getKey, hn]
      · simp [getKey, hn, h, ih]

theorem getKey_filter_key {V : Type} (q : String → Bool) (l : List (String × V))
    (k : String) :
    getKey (l.filter (fun p => q p.1)) k
      = if q k then getKey l k else Option.none := by
  induction l with
  | nil => simp [getKey]
  | cons p rest ih =>
    by_cases h : (p.1 == k) = true
    · have hk : p.1 = k := by simpa using h
      subst hk
      by_cases hq : q p.1 = true
      · simp [List.filter, hq, getKey, ih]
      · simp [List.filter, hq, getKey, ih]
    · by_cases hq : q p.1 = true
      · simp [List.filter, hq, getKey, h, ih]
      · simp [List.filter, hq, getKey, h, ih]

theorem getKey_spread {V : Type} (old newObj : List (String × V)) (k : String) :
    getKey (spread old newObj) k
      = match getKey newObj k with
        | Option.some v => Option.some v
        | Option.none => getKey old k := by
  unfold spread
  rw [getKey_append, getKey_spread_map,
    getKey_filter_key (fun s => (getKey old s).isNone) newObj k]
  cases ho : getKey old k <;> cases hn : getKey newObj k <;> simp [ho, hn]

/-- Shared helper: `deleteBackups` always resolves, attempting the removal
of every listed file under the backup directory, whatever the individual
removal outcomes are. -/
theorem deleteBackups_ok {V : Type} (env : BackupEnv V)
    (removeOutcome : String → Except Unit Unit) (files : List String) :
    deleteBackups env removeOutcome files
      = Except.ok (files.map (fun b => pathJoin (backupPath env.tempDir) b)) := by
  induction files with
  | nil => rfl
  | cons f rest ih =>
    cases h : removeOutcome (pathJoin (backupPath env.tempDir) f) <;>
      simp [deleteBackups, catchE, Except.map, h, ih]

/-- Timestamp `backups[backupId]` used in the filename written by
`createStateBackupSync`, after its registration step. -/
def writeTime {V : Type} (env : BackupEnv V) (backupIdIn : Option String) : Nat :=
  match backupIdIn with
  | Option.none => env.now
  | Option.some id =>
    match regLookup env.registry id with
    | Option.none => env.now
    | Option.some time => time

/-! ## Claim theorems for the backup writer -/

/-- C5: when `createStateBackupSync` is called with a known `backupId`
and reading or parsing the existing backup file fails, the failure is
non-fatal: the existing data is treated as empty, the new backup data is
still written to the same file, and the `backupId` is returned. -/
theorem createStateBackupSync_read_failure_nonfatal {V : Type} (env : BackupEnv V)
    (id : String) (time : Nat) (data : List (String × V))
    (hreg : regLookup env.registry id = Option.some time)
    (hread : env.readParse (pathJoin (backupPath env.tempDir) (makeName time))
      = Except.error ()) :
    createStateBackupSync env (Option.some id) data
      = { returnedId := id
          registry := env.registry
          writtenPath := pathJoin (backupPath env.tempDir) (makeName time)
          written := data } := by
  simp [createStateBackupSync, hreg, hread, spread_nil_left]

/-- Concrete environment whose backup file always fails to read. -/
def failReadEnv : BackupEnv Nat :=
  { tempDir := "tmp"
    registry := [("known", 3)]
    readParse := fun _ => Except.error ()
    freshId := "fresh"
    now := 9 }

/-- Witness for C5: a registered id whose backup file fails to read. -/
theorem createStateBackupSync_read_failure_nonfatal_witness :
    regLookup failReadEnv.registry "known" = Option.some 3
    ∧ createStateBackupSync failReadEnv (Option.some "known") [("b", 20)]
      = { returnedId := "known"
          registry := [("known", 3)]
          writtenPath := pathJoin (backupPath "tmp") (makeName 3)
          written := [("b", 20)] } :=
  ⟨rfl, createStateBackupSync_read_failure_nonfatal failReadEnv "known" 3 [("b", 20)] rfl rfl⟩

/-- C6: `deleteBackups(files)` suppresses each file-removal failure
individually: for every removal-outcome assignment (including failures
for files that do not exist) and every input list, the promise resolves,
and the removal of every listed file is attempted. -/
theorem deleteBackups_best_effort {V : Type} (env : BackupEnv V)
    (removeOutcome : String → Except Unit Unit) (files : List String) :
    deleteBackups env removeOutcome files
      = Except.ok (files.map (fun b => pathJoin (backupPath env.tempDir) b)) :=
  deleteBackups_ok env removeOutcome files

/-- C10: with a registered `backupId`, the written data is the shallow
merge of the stored object with the new data — for every key, the new
data's value wins and keys only in the existing backup are preserved —
and the id is returned; with `undefined` or an unregistered id, the fresh
id is registered at the current time and returned and only the new data
is written. -/
theorem createStateBackupSync_merge {V : Type} (env : BackupEnv V)
    (id id2 : String) (time : Nat) (existing data : List (String × V)) (k : String)
    (hreg : regLookup env.registry id = Option.some time)
    (hread : env.readParse (pathJoin (backupPath env.tempDir) (makeName time))
      = Except.ok existing)
    (hreg2 : regLookup env.registry id2 = Option.none) :
    (createStateBackupSync env (Option.some id) data).returnedId = id
    ∧ (createStateBackupSync env (Option.some id) data).registry = env.registry
    ∧ (createStateBackupSync env (Option.some id) data).written = spread existing data
    ∧ getKey (createStateBackupSync env (Option.some id) data).written k
        = (match getKey data k with
           | Option.some v => Option.some v
           | Option.none => getKey existing k)
    ∧ createStateBackupSync env Option.none data
        = { returnedId := env.freshId
            registry := (env.freshId, env.now) :: env.registry
            writtenPath := pathJoin (backupPath env.tempDir) (makeName env.now)
            written := data }
    ∧ createStateBackupSync env (Option.some id2) data
        = { returnedId := env.freshId
            registry := (env.freshId, env.now) :: env.registry
            writtenPath := pathJoin (backupPath env.tempDir) (makeName env.now)
            written := data } := by
  refine ⟨?_, ?_, ?_, ?_, ?_, ?_⟩ <;>
    simp [createStateBackupSync, hreg, hread, hreg2, getKey_spread, spread_nil_left]

/-- Concrete environment whose backup file parses to `[a: 1, b: 2]`. -/
def okReadEnv : BackupEnv Nat :=
  { tempDir := "tmp"
    registry := [("known", 3)]
    readParse := fun _ => Except.ok [("a", 1), ("b", 2)]
    freshId := "fresh"
    now := 9 }

/-- Witness for C10: existing backup `[a: 1, b: 2]` merged with new data
`[b: 20, c: 30]`; key `a` is preserved from the old object. -/
theorem createStateBackupSync_merge_witness :
    regLookup okReadEnv.registry "known" = Option.some 3
    ∧ regLookup okReadEnv.registry "other" = Option.none
    ∧ getKey (createStateBackupSync okReadEnv
        (Option.some "known") [("b", 20), ("c", 30)]).written "a"
      = Option.some 1 :=
  ⟨rfl, rfl, by
    have h := (createStateBackupSync_merge okReadEnv
      "known" "other" 3 [("a", 1), ("b", 2)] [("b", 20), ("c", 30)] "a"
      rfl rfl rfl).2.2.2.1
    simpa [getKey] using h⟩

/-- C8: every backup write goes to
`<tempDir>/state_backups/backup_<time>.json`, the listing operation keeps
exactly names of that shape, and the delete operation acts under the same
directory; `createStateBackupSync`, `createFullBackup`,
`getListOfBackups` and `deleteBackups` are the four operations. -/
theorem backup_files_under_state_backups {V : Type} (env : BackupEnv V)
    (backupIdIn : Option String) (data state : List (String × V))
    (listing files : List String) (removeOutcome : String → Except Unit Unit)
    (f : String) (hf : f ∈ getListOfBackups listing) :
    (createStateBackupSync env backupIdIn data).writtenPath
      = pathJoin (pathJoin env.tempDir "state_backups")
          (makeName (writeTime env backupIdIn))
    ∧ makeName (writeTime env backupIdIn)
      = "backup_" ++ toString (writeTime env backupIdIn) ++ ".json"
    ∧ (createFullBackup env state).writtenPath
      = pathJoin (pathJoin env.tempDir "state_backups") (makeName env.now)
    ∧ strStartsWith f "backup" = true
    ∧ extname f = ".json"
    ∧ deleteBackups env removeOutcome files
      = Except.ok (files.map (fun b =>
          pathJoin (pathJoin env.tempDir "state_backups") b)) := by
  have hmem := List.mem_filter.mp hf
  have hpred := hmem.2
  simp only [Bool.and_eq_true, beq_iff_eq] at hpred
  refine ⟨?_, rfl, rfl, hpred.1, hpred.2, ?_⟩
  · cases backupIdIn with
    | none => simp [createStateBackupSync, writeTime, backupPath]
    | some id =>
      cases h : regLookup env.registry id <;>
        simp [createStateBackupSync, writeTime, backupPath, h]
  · simpa [backupPath] using deleteBackups_ok env removeOutcome files

/-- Concrete environment with an empty registry. -/
def emptyRegEnv : BackupEnv Nat :=
  { tempDir := "tmp"
    registry := []
    readParse := fun _ => Except.error ()
    freshId := "fresh"
    now := 9 }

/-- Witness for C8 at a concrete environment and listing. -/
theorem backup_files_under_state_backups_witness :
    ("backup_3.json" ∈ getListOfBackups ["backup_3.json", "other.txt"])
    ∧ ((createStateBackupSync emptyRegEnv Option.none [("a", 1)]).writtenPath
      = pathJoin (pathJoin "tmp" "state_backups")
          (makeName (writeTime emptyRegEnv Option.none))) :=
  ⟨by decide, (backup_files_under_state_backups emptyRegEnv
    Option.none [("a", 1)] [] ["backup_3.json", "other.txt"] []
    (fun _ => Except.error ()) "backup_3.json" (by decide)).1⟩

/-! ## `SuperTable.updateCalculatedValues`: in-flight guard
(`src/src/util/stateBackup.ts`, lines 962-1039)

Props objects are identified by reference; reference equality (`===`) is
modelled by equality of `Nat` identifiers.  The relevant instance fields
are `mUpdateInProgress`, `mNextUpdateState` and `mLastUpdateState`
(lines 184-186); `running` carries the `props` captured by the in-flight
invocation's closure, and `started` logs every recomputation actually
started, oldest first, so that "a recomputation runs" is observable. -/

structure TableSync where
  mUpdateInProgress : Bool
  mNextUpdateState : Option Nat
  mLastUpdateState : Option Nat
  running : Option Nat
  started : List Nat
deriving DecidableEq

/-- Invocation of `updateCalculatedValues(props)`: record the props in
`mNextUpdateState`; if an update is in progress return at once, otherwise
set the guard and start recomputing with these props. -/
def callUpdate (s : TableSync) (props : Nat) : TableSync :=
  let s1 := { s with mNextUpdateState := Option.some props }
  if s1.mUpdateInProgress then
    s1
  else
    { s1 with
      mUpdateInProgress := true
      running := Option.some props
      started := s1.started ++ [props] }

/-- Completion of the in-flight recomputation (the `.then` at lines
1025-1034): clear the guard, record the processed props as
`mLastUpdateState`, and when `mNextUpdateState` differs re-invoke
`updateCalculatedValues` with it. -/
def finishUpdate (s : TableSync) : TableSync :=
  match s.running with
  | Option.none => s
  | Option.some p =>
    let s1 := { s with
      mUpdateInProgress := false
      mLastUpdateState := Option.some p
      running := Option.none }
    match s1.mNextUpdateState with
    | Option.some q => if q ≠ p then callUpdate s1 q else s1
    | Option.none => s1

/-- While the guard is set, a burst of invocations only rewrites the
pending props: nothing else of the state changes. -/
theorem callUpdate_burst (l : List Nat) (s : TableSync)
    (h : s.mUpdateInProgress = true) :
    l.foldl callUpdate s
      = { s with mNextUpdateState := match l.getLast? with
          | Option.some q => Option.some q
          | Option.none => s.mNextUpdateState } := by
  induction l generalizing s with
  | nil => simp
  | cons x rest ih =>
    rw [List.foldl_cons]
    have hx : callUpdate s x = { s with mNextUpdateState := Option.some x } := by
      simp [callUpdate, h]
    rw [hx, ih { s with mNextUpdateState := Option.some x } h]
    cases hr : rest.getLast? with
    | none =>
      have : rest = [] := List.getLast?_eq_none_iff.mp hr
      subst this
      simp
    | some q =>
      have hxq : (x :: rest).getLast? = Option.some q := by
        cases rest with
        | nil => simp at hr
        | cons y ys => rw [List.getLast?_cons_cons]; exact hr
      simp [hxq, hr]

/-- C2: a call of `updateCalculatedValues` while a recomputation is in
flight records its props as the pending update state and starts nothing;
when the in-flight recomputation finishes and the pending props differ
from the just-processed ones, exactly one follow-up recomputation starts,
with the most recently supplied props — a whole burst of overlapping
calls collapses into the latest one. -/
theorem updateCalculatedValues_collapse (s : TableSync) (p q : Nat) (ps : List Nat)
    (hin : s.mUpdateInProgress = true) (hrun : s.running = Option.some p)
    (hq : q ≠ p) :
    (callUpdate s q).started = s.started
    ∧ (callUpdate s q).running = s.running
    ∧ (callUpdate s q).mNextUpdateState = Option.some q
    ∧ ((ps ++ [q]).foldl callUpdate s).started = s.started
    ∧ (finishUpdate ((ps ++ [q]).foldl callUpdate s)).started = s.started ++ [q]
    ∧ (finishUpdate ((ps ++ [q]).foldl callUpdate s)).running = Option.some q
    ∧ (finishUpdate ((ps ++ [q]).foldl callUpdate s)).mLastUpdateState
        = Option.some p := by
  have hb : (ps ++ [q]).foldl callUpdate s
      = { s with mNextUpdateState := Option.some q } := by
    rw [callUpdate_burst _ s hin]
    have hg : (ps ++ [q]).getLast? = Option.some q := by simp
    rw [hg]
  refine ⟨?_, ?_, ?_, ?_, ?_, ?_, ?_⟩ <;>
    simp [callUpdate, finishUpdate, hin, hb, hrun, hq]

/-- Concrete mid-flight state: a recomputation with props `0` is running
and was the last one started. -/
def burstState : TableSync :=
  { mUpdateInProgress := true
    mNextUpdateState := Option.some 0
    mLastUpdateState := Option.none
    running := Option.some 0
    started := [0] }

/-- Witness for C2: two overlapping calls (props `1` then `2`) during the
run with props `0`; on finish, exactly one follow-up starts with `2`. -/
theorem updateCalculatedValues_collapse_witness :
    burstState.mUpdateInProgress = true
    ∧ burstState.running = Option.some 0
    ∧ (2 ≠ 0)
    ∧ (finishUpdate (([1] ++ [2]).foldl callUpdate burstState)).started
        = burstState.started ++ [2]
    ∧ (finishUpdate (([1] ++ [2]).foldl callUpdate burstState)).running
        = Option.some 2 :=
  ⟨rfl, rfl, by decide,
    (updateCalculatedValues_collapse burstState 0 2 [1] rfl rfl (by decide)).2.2.2.2.1,
    (updateCalculatedValues_collapse burstState 0 2 [1] rfl rfl (by decide)).2.2.2.2.2.1⟩

/-! ## `SuperTable.updateCalculatedValues`: per-cell recomputation
(`src/src/util/stateBackup.ts`, lines 975-1007)

Row source data objects are identified by reference (`Nat`); `===` on
them is `Nat` equality, and `_.isEqual` (deep comparison) on calculated
values is equality in the value type `V`.  `oldData` is
`mLastUpdateState.data` (`Option.none` for a row absent there), `cached`
is `this.state.calculatedValues` per row and attribute id, and `force`
is the `forceUpdateId` argument. -/

/-- A table attribute as the recomputation uses it: `id`, `isVolatile`
and the `calc` function (named `calcFn` here, `calc` being reserved);
`calc` depends only on the row's source object, `t` being fixed. -/
structure CalcAttr (V : Type) where
  id : String
  isVolatile : Bool
  calcFn : Nat → V

/-- Outcome of the recomputation for one cell: whether `attribute.calc`
was invoked, whether the cell entered the delta (its new value deep-
compared different from the cached one), and the cell's value in the
updated `calculatedValues`. -/
structure CellOutcome (V : Type) where
  invoked : Bool
  changed : Bool
  value : Option V

/-- One cell of the recomputation (lines 983-996 plus the per-row
`$merge` of the delta at lines 999-1005). -/
def runCell {V : Type} [DecidableEq V] (force : Option String) (oldRef : Option Nat)
    (ref : Nat) (cached : Option V) (a : CalcAttr V) : CellOutcome V :=
  if a.isVolatile = false ∧ force ≠ Option.some a.id ∧ oldRef = Option.some ref then
    { invoked := false, changed := false, value := cached }
  else
    let newValue := a.calcFn ref
    if Option.some newValue = cached then
      { invoked := true, changed := false, value := cached }
    else
      { invoked := true, changed := true, value := Option.some newValue }

/-- One row of the recomputation: every attribute's cell. -/
def runRow {V : Type} [DecidableEq V] (force : Option String)
    (oldData : String → Option Nat) (cached : String → String → Option V)
    (attrs : List (CalcAttr V)) (rowId : String) (ref : Nat) :
    List (String × CellOutcome V) :=
  attrs.map (fun a => (a.id, runCell force (oldData rowId) ref (cached rowId a.id) a))

/-- The whole recomputation pass over `Object.keys(data)` (`rows` pairs
each key with its source object's reference). -/
def updateCalculatedValuesRun {V : Type} [DecidableEq V] (force : Option String)
    (oldData : String → Option Nat) (rows : List (String × Nat))
    (cached : String → String → Option V) (attrs : List (CalcAttr V)) :
    List (String × List (String × CellOutcome V)) :=
  rows.map (fun r => (r.1, runRow force oldData cached attrs r.1 r.2))

/-- C3: in the recomputation pass, a cell's `calc` is skipped (cached
value kept) exactly when the attribute is not volatile, is not the
forced-update column, and the row's source object is reference-equal to
the one seen by the previous completed update; otherwise `calc` runs and
the cached value is replaced only if the new value deep-compares
different. -/
theorem calc_memoization {V : Type} [DecidableEq V] (force : Option String)
    (oldData : String → Option Nat) (rows : List (String × Nat))
    (cached : String → String → Option V) (attrs : List (CalcAttr V))
    (rowId : String) (ref : Nat) (a : CalcAttr V)
    (hrow : (rowId, ref) ∈ rows) (hattr : a ∈ attrs) :
    (rowId, runRow force oldData cached attrs rowId ref)
        ∈ updateCalculatedValuesRun force oldData rows cached attrs
    ∧ (a.id, runCell force (oldData rowId) ref (cached rowId a.id) a)
        ∈ runRow force oldData cached attrs rowId ref
    ∧ (a.isVolatile = false ∧ force ≠ Option.some a.id ∧ oldData rowId = Option.some ref →
        (runCell force (oldData rowId) ref (cached rowId a.id) a).invoked = false
        ∧ (runCell force (oldData rowId) ref (cached rowId a.id) a).value
            = cached rowId a.id)
    ∧ (¬(a.isVolatile = false ∧ force ≠ Option.some a.id ∧ oldData rowId = Option.some ref) →
        (runCell force (oldData rowId) ref (cached rowId a.id) a).invoked = true
        ∧ ((runCell force (oldData rowId) ref (cached rowId a.id) a).value
            = if Option.some (a.calcFn ref) = cached rowId a.id then cached rowId a.id
              else Option.some (a.calcFn ref))
        ∧ ((runCell force (oldData rowId) ref (cached rowId a.id) a).changed = true
            ↔ Option.some (a.calcFn ref) ≠ cached rowId a.id)) := by
  refine ⟨List.mem_map_of_mem _ hrow, List.mem_map_of_mem _ hattr, ?_, ?_⟩
  · intro h
    rw [runCell, if_pos h]
    exact ⟨rfl, rfl⟩
  · intro h
    by_cases hc : Option.some (a.calcFn ref) = cached rowId a.id
    · simp [runCell, h, hc]
    · simp [runCell, h, hc]

/-- Concrete non-volatile attribute for the C3 witness. -/
def exCalcAttr : CalcAttr Nat :=
  { id := "col", isVolatile := false, calcFn := fun r => r + 1 }

/-- Witness for C3: with an unchanged source reference, no force column
and a non-volatile attribute, the cell is skipped and keeps its cache. -/
theorem calc_memoization_witness :
    (("r", 5) ∈ [("r", 5)])
    ∧ (exCalcAttr ∈ [exCalcAttr])
    ∧ (runCell Option.none ((fun _ => Option.some 5) "r") 5
        ((fun _ _ => Option.some 42) "r" exCalcAttr.id) exCalcAttr).invoked = false
    ∧ (runCell Option.none ((fun _ => Option.some 5) "r") 5
        ((fun _ _ => Option.some 42) "r" exCalcAttr.id) exCalcAttr).value
        = Option.some 42 :=
  ⟨List.mem_cons_self _ _, List.mem_cons_self _ _,
    ((calc_memoization Option.none (fun _ => Option.some 5) [("r", 5)]
      (fun _ _ => Option.some 42) [exCalcAttr] "r" 5 exCalcAttr
      (List.mem_cons_self _ _) (List.mem_cons_self _ _)).2.2.1 (by decide)).1,
    ((calc_memoization Option.none (fun _ => Option.some 5) [("r", 5)]
      (fun _ _ => Option.some 42) [exCalcAttr] "r" 5 exCalcAttr
      (List.mem_cons_self _ _) (List.mem_cons_self _ _)).2.2.1 (by decide)).2⟩

/-! ## `SuperTable.sortedRows` and `SuperTable.setSortDirection`
(`src/src/util/stateBackup.ts`, lines 1057-1061, 1106-1165, 1340-1368)

Raw row data values and calculated cell values are modelled as `Nat`
(`Option Nat` where JavaScript may see `undefined`); `data` is an
insertion-ordered association list, as `Object.keys` enumeration order
matters.  `calculatedValues` maps a row id to its (possibly absent) row
of calculated values.  `sortFunc` and `sortFuncRaw` comparators are
arbitrary functions; the fixed `locale` argument is dropped.
`Array.prototype.sort` with a comparator is modelled by a stable
insertion sort (`stableSort`): JavaScript's sort is required to be
stable. -/

inductive SortDirection where
  | none
  | asc
  | desc
deriving DecidableEq

/-- Per-column UI state.  The outer `Option` is whether the state object
has an own `sortDirection` property at all (JavaScript distinguishes a
missing property from one holding `undefined`: object spread copies the
latter but not the former); the inner `Option` is the property's value,
`Option.none` being `undefined`. -/
structure AttrState where
  sortDirection : Option (Option SortDirection)
deriving DecidableEq

/-- Reading `st.sortDirection` in JavaScript: a missing property and a
property holding `undefined` both read as `undefined`. -/
def AttrState.sortDirectionRead (st : AttrState) : Option SortDirection :=
  match st.sortDirection with
  | Option.none => Option.none
  | Option.some v => v

/-- A column as the sort uses it. -/
structure SortAttr where
  id : String
  sortFunc : Option (Option Nat → Option Nat → Int)
  sortFuncRaw : Option (Option Nat → Option Nat → Int)

/-- Predicate of the `attributes.find` at lines 1112-1116: the column
has state, its `sortDirection` is defined and is not `'none'`. -/
def isSortCol (attributeState : String → Option AttrState) (id : String) : Bool :=
  match attributeState id with
  | Option.none => false
  | Option.some st =>
    match st.sortDirectionRead with
    | Option.none => false
    | Option.some d => d != SortDirection.none

/-- `data[rowId]`: `undefined` when the key is absent or holds an
undefined value. -/
def dataAt (data : List (String × Option Nat)) (k : String) : Option Nat :=
  match data.find? (fun p => p.1 == k) with
  | Option.some p => p.2
  | Option.none => Option.none

/-- `calculatedValues[rowId][attrId]` (`Option.none` outer rows never
reached in the guarded uses). -/
def cvAt (calculatedValues : String → Option (String → Option Nat)) (rowId attrId : String) :
    Option Nat :=
  match calculatedValues rowId with
  | Option.none => Option.none
  | Option.some row => row attrId

/-- JavaScript `<` (comparisons with `undefined` are false). -/
def jsLt : Option Nat → Option Nat → Bool
  | Option.some a, Option.some b => decide (a < b)
  | _, _ => false

/-- JavaScript `===`. -/
def jsEq : Option Nat → Option Nat → Bool
  | Option.some a, Option.some b => decide (a = b)
  | Option.none, Option.none => true
  | _, _ => false

/-- `standardSort(lhs, rhs)`: `lhs < rhs ? -1 : lhs === rhs ? 0 : 1`. -/
def standardSort (lhs rhs : Option Nat) : Int :=
  if jsLt lhs rhs then -1 else if jsEq lhs rhs then 0 else 1

/-- Stable insertion: `x` goes before the first element it does not
compare after. -/
def stableInsert (cmp : String → String → Int) (x : String) : List String → List String
  | [] => [x]
  | y :: ys => if cmp x y ≤ 0 then x :: y :: ys else y :: stableInsert cmp x ys

/-- Stable comparator sort, modelling `Array.prototype.sort(cmp)`. -/
def stableSort (cmp : String → String → Int) : List String → List String
  | [] => []
  | x :: xs => stableInsert cmp x (stableSort cmp xs)

/-- `attributeState[id].sortDirection === 'desc'`. -/
def isDescending (attributeState : String → Option AttrState) (id : String) : Bool :=
  match attributeState id with
  | Option.none => false
  | Option.some st => st.sortDirectionRead == Option.some SortDirection.desc

/-- The `sortFunction` chosen at lines 1127-1142: `sortFunc` over
calculated values if present, else `sortFuncRaw` over raw row data, else
`standardSort` over calculated values. -/
def sortFunction (sortAttribute : SortAttr) (data : List (String × Option Nat))
    (calculatedValues : String → Option (String → Option Nat)) :
    String → String → Int :=
  match sortAttribute.sortFunc with
  | Option.some f => fun l r =>
      f (cvAt calculatedValues l sortAttribute.id)
        (cvAt calculatedValues r sortAttribute.id)
  | Option.none =>
    match sortAttribute.sortFuncRaw with
    | Option.some g => fun l r => g (dataAt data l) (dataAt data r)
    | Option.none => fun l r =>
        standardSort (cvAt calculatedValues l sortAttribute.id)
          (cvAt calculatedValues r sortAttribute.id)

/-- `undefCompare` at lines 1149-1154: rows whose sort value is
`undefined` sort after rows whose value is defined. -/
def undefCompare (sortAttribute : SortAttr)
    (calculatedValues : String → Option (String → Option Nat)) :
    String → String → Int := fun l r =>
  if (cvAt calculatedValues l sortAttribute.id).isSome then 1
  else if (cvAt calculatedValues r sortAttribute.id).isSome then -1
  else 0

/-- The comparator passed to `.sort` at lines 1156-1164: `sortFunction`
when a raw comparator exists or both sort values are defined, otherwise
`undefCompare`; the result negated under a descending direction. -/
def rowComparator (sortAttribute : SortAttr)
    (attributeState : String → Option AttrState)
    (data : List (String × Option Nat))
    (calculatedValues : String → Option (String → Option Nat)) :
    String → String → Int := fun lhsId rhsId =>
  let res :=
    if sortAttribute.sortFuncRaw.isSome
        || ((cvAt calculatedValues lhsId sortAttribute.id).isSome
            && (cvAt calculatedValues rhsId sortAttribute.id).isSome)
    then sortFunction sortAttribute data calculatedValues lhsId rhsId
    else undefCompare sortAttribute calculatedValues lhsId rhsId
  if isDescending attributeState sortAttribute.id then res * -1 else res

/-- `SuperTable.sortedRows` (lines 1106-1165). -/
def sortedRows (attributeState : String → Option AttrState) (attributes : List SortAttr)
    (data : List (String × Option Nat))
    (calculatedValues : String → Option (String → Option Nat)) : List String :=
  match attributes.find? (fun a => isSortCol attributeState a.id) with
  | Option.none =>
    (data.map Prod.fst).filter (fun rowId => (dataAt data rowId).isSome)
  | Option.some sortAttribute =>
    stableSort (rowComparator sortAttribute attributeState data calculatedValues)
      ((data.map Prod.fst).filter (fun key => (calculatedValues key).isSome))

/-- `getAttributeState(...).sortDirection`: the spread
`{ sortDirection: 'none', ...attributeStates[attribute.id] }` keeps the
`'none'` default when the column has no state object or the state object
has no own `sortDirection` property; a property that is present — even
holding `undefined` — overrides the default. -/
def getAttributeStateSortDirection (attributeState : String → Option AttrState)
    (id : String) : Option SortDirection :=
  match attributeState id with
  | Option.none => Option.some SortDirection.none
  | Option.some st =>
    match st.sortDirection with
    | Option.none => Option.some SortDirection.none
    | Option.some v => v

/-- `SuperTable.setSortDirection` (lines 1354-1368) as the ordered list
of `onSetAttributeSort` dispatches (attribute id, new direction): every
other column whose current direction is not `'none'` is reset, then the
requested column is set. -/
def setSortDirection (objects : List SortAttr) (attributeState : String → Option AttrState)
    (id : String) (direction : SortDirection) : List (String × SortDirection) :=
  ((objects.map (fun a => a.id)).filter (fun testId =>
      testId != id
      && getAttributeStateSortDirection attributeState testId != Option.some SortDirection.none)
    |>.map (fun testId => (testId, SortDirection.none)))
  ++ [(id, direction)]


/-! ### Stability of the comparator sort -/

/-- Inserting an element never reorders the existing elements: any
sublist of `l` is still a sublist of `stableInsert cmp x l`. -/
theorem sublist_stableInsert (cmp : String → String → Int) (x : String)
    (l l' : List String) (h : l'.Sublist l) :
    l'.Sublist (stableInsert cmp x l) := by
  induction l generalizing l' with
  | nil =>
    rw [List.sublist_nil.mp h]
    exact List.nil_sublist _
  | cons z zs ih =>
    rw [stableInsert]
    by_cases hc : cmp x z ≤ 0
    · rw [if_pos hc]
      exact List.Sublist.cons x h
    · rw [if_neg hc]
      cases h with
      | cons _ h' => exact List.Sublist.cons z (ih _ h')
      | cons₂ _ h' => exact List.Sublist.cons₂ z (ih _ h')

/-- The element being inserted lands before every element of the list it
compares `≤ 0` against. -/
theorem pair_sublist_stableInsert (cmp : String → String → Int) (x y : String)
    (l : List String) (hy : y ∈ l) (hxy : cmp x y ≤ 0) :
    [x, y].Sublist (stableInsert cmp x l) := by
  induction l with
  | nil => cases hy
  | cons z zs ih =>
    rw [stableInsert]
    by_cases hc : cmp x z ≤ 0
    · rw [if_pos hc]
      exact List.Sublist.cons₂ x (List.singleton_sublist.mpr hy)
    · rw [if_neg hc]
      rcases List.mem_cons.mp hy with rfl | hzs
      · exact absurd hxy hc
      · exact List.Sublist.cons z (ih hzs)

theorem self_mem_stableInsert (cmp : String → String → Int) (x : String)
    (l : List String) : x ∈ stableInsert cmp x l := by
  induction l with
  | nil => exact List.mem_singleton_self x
  | cons z zs ih =>
    rw [stableInsert]
    by_cases hc : cmp x z ≤ 0
    · rw [if_pos hc]
      exact List.mem_cons_self _ _
    · rw [if_neg hc]
      exact List.mem_cons_of_mem z ih

theorem mem_stableInsert_of_mem (cmp : String → String → Int) (x a : String)
    (l : List String) (h : a ∈ l) : a ∈ stableInsert cmp x l := by
  induction l with
  | nil => cases h
  | cons z zs ih =>
    rw [stableInsert]
    by_cases hc : cmp x z ≤ 0
    · rw [if_pos hc]
      exact List.mem_cons_of_mem x h
    · rw [if_neg hc]
      rcases List.mem_cons.mp h with rfl | hzs
      · exact List.mem_cons_self _ _
      · exact List.mem_cons_of_mem z (ih hzs)

theorem mem_stableSort_of_mem (cmp : String → String → Int) (a : String)
    (l : List String) (h : a ∈ l) : a ∈ stableSort cmp l := by
  induction l with
  | nil => cases h
  | cons z zs ih =>
    rw [stableSort]
    rcases List.mem_cons.mp h with rfl | hzs
    · exact self_mem_stableInsert cmp a _
    · exact mem_stableInsert_of_mem cmp z a _ (ih hzs)

/-- Stability of the comparator sort: a pair in input order whose
comparison is `≤ 0` — in particular a tie — keeps its relative order. -/
theorem stableSort_pair_stable (cmp : String → String → Int) (x y : String)
    (l : List String) (hs : [x, y].Sublist l) (hxy : cmp x y ≤ 0) :
    [x, y].Sublist (stableSort cmp l) := by
  induction l with
  | nil => simp at hs
  | cons z zs ih =>
    rw [stableSort]
    cases hs with
    | cons _ h' => exact sublist_stableInsert cmp z _ _ (ih h')
    | cons₂ _ h' =>
      exact pair_sublist_stableInsert cmp x y _
        (mem_stableSort_of_mem cmp y zs (List.singleton_sublist.mp h')) hxy

/-- Column state giving every column a present `sortDirection` property
holding `'asc'`. -/
def exAttrState : String → Option AttrState :=
  fun _ => Option.some { sortDirection := Option.some (Option.some SortDirection.asc) }

/-- The sort column of the counterexample: standard comparison, no
custom comparators. -/
def exSortAttr : SortAttr :=
  { id := "col", sortFunc := Option.none, sortFuncRaw := Option.none }

def exSortAttrs : List SortAttr := [exSortAttr]

/-- A second column, for exercising `setSortDirection` resets. -/
def exSortAttr2 : SortAttr :=
  { id := "col2", sortFunc := Option.none, sortFuncRaw := Option.none }

def exObjects : List SortAttr := [exSortAttr, exSortAttr2]

/-- Calculated values: every row's every cell is `5`, so all rows tie
under the sort column's comparison. -/
def exCv : String → Option (String → Option Nat) :=
  fun _ => Option.some (fun _ => Option.some 5)

/-- Rows `a` (raw value 10) and `b` (raw value 20), in the two possible
enumeration orders. -/
def exData1 : List (String × Option Nat) := [("a", Option.some 10), ("b", Option.some 20)]

def exData2 : List (String × Option Nat) := [("b", Option.some 20), ("a", Option.some 10)]

/-- Counterexample to C4 as stated: rows `a` and `b` tie under the
primary comparison (both calculated values are `5`) and have distinct
raw data (10 and 20), yet `sortedRows` orders them one way for one
enumeration order of `data` and the other way for the other.  So the
relative order of tied rows is a function of the enumeration order
alone, not of any secondary comparator over the rows' raw data: no
raw-data tie-break exists. -/
theorem sortedRows_no_raw_tiebreak :
    sortedRows exAttrState exSortAttrs exData1 exCv = ["a", "b"]
    ∧ sortedRows exAttrState exSortAttrs exData2 exCv = ["b", "a"] := by
  decide

/-- C4 (amended): the row ordering is produced by a single-criterion
stable sort.  Whatever the active column's comparators are, any two rows
that the data object enumerates in some order and that tie under the
column's comparison keep that relative order in the output — no
secondary comparator breaks ties; and `setSortDirection` dispatches a
`'none'` reset to every other column whose direction is active while
only the requested column receives an active direction, so at most one
sort criterion is active at a time. -/
theorem sortedRows_single_criterion_stable
    (attributeState : String → Option AttrState) (attributes : List SortAttr)
    (data : List (String × Option Nat))
    (calculatedValues : String → Option (String → Option Nat))
    (a : SortAttr) (x y : String)
    (objects : List SortAttr) (st2 : String → Option AttrState)
    (id otherId : String) (direction : SortDirection) (p : String × SortDirection)
    (hfind : attributes.find? (fun s => isSortCol attributeState s.id) = Option.some a)
    (hsub : [x, y].Sublist
      ((data.map Prod.fst).filter (fun key => (calculatedValues key).isSome)))
    (htie : rowComparator a attributeState data calculatedValues x y = 0)
    (hp : p ∈ setSortDirection objects st2 id direction)
    (hact : p.2 ≠ SortDirection.none)
    (hmem : otherId ∈ objects.map (fun s => s.id)) (hne : otherId ≠ id)
    (hactive : getAttributeStateSortDirection st2 otherId
      ≠ Option.some SortDirection.none) :
    [x, y].Sublist (sortedRows attributeState attributes data calculatedValues)
    ∧ p = (id, direction)
    ∧ (id, direction) ∈ setSortDirection objects st2 id direction
    ∧ (otherId, SortDirection.none) ∈ setSortDirection objects st2 id direction := by
  refine ⟨?_, ?_, ?_, ?_⟩
  · have heq : sortedRows attributeState attributes data calculatedValues
        = stableSort (rowComparator a attributeState data calculatedValues)
            ((data.map Prod.fst).filter (fun key => (calculatedValues key).isSome)) := by
      unfold sortedRows
      rw [hfind]
    rw [heq]
    exact stableSort_pair_stable _ x y _ hsub (le_of_eq htie)
  · rcases List.mem_append.mp hp with hL | hR
    · rcases List.mem_map.mp hL with ⟨t, ht, hpt⟩
      exact absurd (congrArg Prod.snd hpt.symm) hact
    · simpa using hR
  · exact List.mem_append_right _ (List.mem_singleton.mpr rfl)
  · apply List.mem_append_left
    apply List.mem_map.mpr
    refine ⟨otherId, ?_, rfl⟩
    apply List.mem_filter.mpr
    refine ⟨hmem, ?_⟩
    simp [hne, hactive]

/-- Witness for the amended C4: rows `a` and `b` tie, and `a` precedes
`b` both in the data enumeration and in the output; setting `col`
ascending dispatches a reset of the active column `col2`. -/
theorem sortedRows_single_criterion_stable_witness :
    rowComparator exSortAttr exAttrState exData1 exCv "a" "b" = 0
    ∧ [("a" : String), "b"].Sublist (sortedRows exAttrState exSortAttrs exData1 exCv)
    ∧ (("col2", SortDirection.none)
        ∈ setSortDirection exObjects exAttrState "col" SortDirection.asc) :=
  ⟨by decide,
    (sortedRows_single_criterion_stable exAttrState exSortAttrs exData1 exCv exSortAttr
      "a" "b" exObjects exAttrState "col" "col2" SortDirection.asc
      ("col", SortDirection.asc) rfl (by decide) (by decide) (by decide) (by decide)
      (by decide) (by decide) (by decide)).1,
    (sortedRows_single_criterion_stable exAttrState exSortAttrs exData1 exCv exSortAttr
      "a" "b" exObjects exAttrState "col" "col2" SortDirection.asc
      ("col", SortDirection.asc) rfl (by decide) (by decide) (by decide) (by decide)
      (by decide) (by decide) (by decide)).2.2.2⟩
